import Mathlib

/-!
Verification development for the PDF bank-statement parsing pipeline of
`app/importers/statement_pdf.py` (home-finance-centre).

The Python module is shallowly embedded over `List Char`.  The three regular
expressions of the source (`MONEY_RE`, `DATE_LINE_RE`, `NO_DATE_START_RE`) are
implemented as executable matchers that reproduce the engine's leftmost-match,
first-alternative, greedy-with-backtracking semantics on these concrete
patterns; Python string helpers (`strip`, `upper`, `capitalize`, truthiness)
are modelled explicitly.
-/

/-- Python `\s` / `str.strip` whitespace, restricted to the ASCII range
(actual statement text is ASCII). -/
def pyIsSpace (c : Char) : Bool :=
  c = ' ' || c = '\t' || c = '\n' || c = '\r' || c = '\x0b' || c = '\x0c'

/-- Python `\d`, restricted to ASCII. -/
def isAsciiDigit (c : Char) : Bool :=
  '0' ≤ c && c ≤ '9'

/-- The `[A-Za-z]` character class of `DATE_LINE_RE`. -/
def isAsciiAlpha (c : Char) : Bool :=
  ('A' ≤ c && c ≤ 'Z') || ('a' ≤ c && c ≤ 'z')

/-- Python `\w` (word character), restricted to ASCII; used for `\b`. -/
def isWordChar (c : Char) : Bool :=
  isAsciiAlpha c || isAsciiDigit c || c = '_'

/-- Python `str.strip()`: drop leading and trailing whitespace. -/
def pyStrip (l : List Char) : List Char :=
  ((l.dropWhile pyIsSpace).reverse.dropWhile pyIsSpace).reverse

/-- `re.sub(r"[^A-Z]", "", line.upper())`: uppercase, keep only A-Z. -/
def normLetters (l : List Char) : List Char :=
  (l.map Char.toUpper).filter (fun c => 'A' ≤ c && c ≤ 'Z')

/-- Python `str.capitalize()`: first character uppercased, rest lowercased. -/
def pyCapitalize (l : List Char) : List Char :=
  match l with
  | [] => []
  | c :: rest => c.toUpper :: rest.map Char.toLower

/-- Python `int` on a (non-empty) decimal-digit string. -/
def digitsToNat (l : List Char) : Nat :=
  l.foldl (fun acc c => acc * 10 + (c.toNat - '0'.toNat)) 0

/-- Zero-pad a digit list on the left to the given width
(the `0Nd` format specifications of `_format_date_ddmmyyyy`). -/
def padZeros (width : Nat) (ds : List Char) : List Char :=
  List.replicate (width - ds.length) '0' ++ ds

/-- Python `f-string` formatting `{n:0Wd}` for a natural number. -/
def fmtWidth (width n : Nat) : List Char :=
  padZeros width (Nat.toDigits 10 n)

/-! ### MONEY_RE

`MONEY_RE = (?P<num>\d{1,3}(?:,\d{3})*\.\d{2}|\d+\.\d{2})`.

An anchored attempt at a position tries the first alternative with `\d{1,3}`
greedily (3, 2, then 1 leading digits, each followed by the maximal run of
`,\d{3}` groups — giving a group back lands on a `,`, which can never satisfy
the following `\.`, so the star needs no further backtracking), then the
second alternative with the maximal digit run (giving a digit back can never
satisfy `\.`).  `moneyCandidateLens` lists the match lengths of all these
attempts in the engine's preference order. -/

/-- Length of the maximal `(?:,\d{3})*` run at the front of the list. -/
def commaGroupsLen : List Char → Nat
  | ',' :: a :: b :: c :: rest =>
    if isAsciiDigit a && isAsciiDigit b && isAsciiDigit c then
      4 + commaGroupsLen rest
    else 0
  | _ => 0

/-- Does the list start with `\.\d{2}`? -/
def dotTwoDigits : List Char → Bool
  | '.' :: a :: b :: _ => isAsciiDigit a && isAsciiDigit b
  | _ => false

/-- Anchored attempt of the first `MONEY_RE` alternative with exactly `k`
leading digits; returns the match length on success. -/
def branch1At (l : List Char) (k : Nat) : Option Nat :=
  let pre := l.take k
  if pre.length = k && pre.all isAsciiDigit then
    let g := commaGroupsLen (l.drop k)
    if dotTwoDigits (l.drop (k + g)) then some (k + g + 3) else none
  else none

/-- Anchored attempt of the second `MONEY_RE` alternative (`\d+\.\d{2}`). -/
def branch2At (l : List Char) : Option Nat :=
  let r := (l.takeWhile isAsciiDigit).length
  if 1 ≤ r && dotTwoDigits (l.drop r) then some (r + 3) else none

/-- All anchored `MONEY_RE` match lengths at the front of the list, in the
regex engine's backtracking order. -/
def moneyCandidateLens (l : List Char) : List Nat :=
  ([3, 2, 1].filterMap (branch1At l)) ++ (branch2At l).toList

/-- The anchored `MONEY_RE` match length the engine commits to first. -/
def moneyMatchLen (l : List Char) : Option Nat :=
  (moneyCandidateLens l).head?

/-- `MONEY_RE.finditer`: scan left to right, emit each leftmost
non-overlapping match, resume after it.  Fuel-indexed; each step consumes at
least one character, so `l.length` fuel is enough. -/
def findMoneyAux : Nat → List Char → List (List Char)
  | 0, _ => []
  | Nat.succ fuel, l =>
    match l with
    | [] => []
    | _ :: rest =>
      match moneyMatchLen l with
      | some n => l.take n :: findMoneyAux fuel (l.drop n)
      | none => findMoneyAux fuel rest

/-- `[m.group("num") for m in MONEY_RE.finditer(text)]`. -/
def findMoneyTokens (l : List Char) : List (List Char) :=
  findMoneyAux l.length l

/-- `_clean_amount_token`: remove grouping commas. -/
def cleanAmountToken (tok : List Char) : List Char :=
  tok.filter (fun c => c ≠ ',')

/-- `_extract_amount_and_balance`: `nums[-1]` is the head of the reversed
token list and `nums[-2]` the second element. -/
def extractAmountAndBalance (blockText : List Char) :
    Option (List Char) × Option (List Char) :=
  let nums := findMoneyTokens blockText
  match nums.reverse with
  | [] => (none, none)
  | [a] => (some (cleanAmountToken a), none)
  | bal :: amt :: _ => (some (cleanAmountToken amt), some (cleanAmountToken bal))

example : findMoneyTokens ("two 5,224.34 then 1234.56 end").data
    = [("5,224.34").data, ("1234.56").data] := by decide

example : findMoneyTokens ("02 Dec 25 CR SALARY 1000.00 1000.00").data
    = [("1000.00").data, ("1000.00").data] := by decide

example : extractAmountAndBalance ("VIS TESCO 12.34 987.66").data
    = (some ("12.34").data, some ("987.66").data) := by decide

example : extractAmountAndBalance ("03 Dec 25 BP PHONE 19.99").data
    = (some ("19.99").data, none) := by decide

example : extractAmountAndBalance ("no money here").data = (none, none) := by decide

/-! ### DATE_LINE_RE

`^(?P<day>\d{2})\s(?P<mon>[A-Za-z]{3})\s(?P<yy>\d{2})\s+(?P<rest>.+)$`,
applied with `re.match`.  After the fixed-shape prefix, `\s+` greedily
consumes the maximal whitespace run and gives characters back one at a time
until `.+$` can match: at least one remaining character, none of which may be
a newline (`.` excludes `\n`, and with an all-whitespace remainder `$` only
matches at the very end here because the scanned lines never contain
newlines). -/

/-- Backtracking of `\s+(?P<rest>.+)$`: try dropping `j, j-1, ..., 1`
whitespace characters and return the first remainder that is non-empty and
newline-free. -/
def tryRestDrops : Nat → List Char → Option (List Char)
  | 0, _ => none
  | Nat.succ j, rest0 =>
    let r := rest0.drop (Nat.succ j)
    if !r.isEmpty && !r.contains '\n' then some r else tryRestDrops j rest0

/-- `DATE_LINE_RE.match`: on success, the `day`, `mon`, `yy` and `rest`
groups. -/
def matchDateLine (l : List Char) :
    Option (List Char × List Char × List Char × List Char) :=
  match l with
  | d1 :: d2 :: s1 :: m1 :: m2 :: m3 :: s2 :: y1 :: y2 :: rest0 =>
    if isAsciiDigit d1 && isAsciiDigit d2 && pyIsSpace s1
        && isAsciiAlpha m1 && isAsciiAlpha m2 && isAsciiAlpha m3
        && pyIsSpace s2 && isAsciiDigit y1 && isAsciiDigit y2 then
      match tryRestDrops (rest0.takeWhile pyIsSpace).length rest0 with
      | some rest => some ([d1, d2], [m1, m2, m3], [y1, y2], rest)
      | none => none
    else none
  | _ => none

/-! ### Month table and date formatting -/

/-- The errors the Python module raises (`FileNotFoundError`, `ValueError`
for a non-PDF path, `ValueError` for an unknown month token). -/
inductive PdfError where
  | notFound : PdfError
  | wrongFileType : PdfError
  | unknownMonth : List Char → PdfError
deriving DecidableEq

instance {ε α : Type} [DecidableEq ε] [DecidableEq α] : DecidableEq (Except ε α) :=
  fun x y =>
    match x, y with
    | Except.ok a, Except.ok b =>
      if h : a = b then isTrue (by rw [h]) else
        isFalse (fun he => h (Except.ok.injEq a b ▸ he))
    | Except.error a, Except.error b =>
      if h : a = b then isTrue (by rw [h]) else
        isFalse (fun he => h (Except.error.injEq a b ▸ he))
    | Except.ok _, Except.error _ => isFalse (fun he => Except.noConfusion he)
    | Except.error _, Except.ok _ => isFalse (fun he => Except.noConfusion he)

/-- The fixed 12-entry `months` dictionary of `_month_to_number`. -/
def monthTable : List (List Char × Nat) :=
  [(("Jan").data, 1), (("Feb").data, 2), (("Mar").data, 3), (("Apr").data, 4),
   (("May").data, 5), (("Jun").data, 6), (("Jul").data, 7), (("Aug").data, 8),
   (("Sep").data, 9), (("Oct").data, 10), (("Nov").data, 11), (("Dec").data, 12)]

/-- `_month_to_number`: look up `mon.capitalize()`; `if not m: raise`
(Python truthiness also rejects a zero entry, faithfully modelled). -/
def monthToNumber (mon : List Char) : Except PdfError Nat :=
  match monthTable.lookup (pyCapitalize mon) with
  | some m => if m = 0 then Except.error (PdfError.unknownMonth mon) else Except.ok m
  | none => Except.error (PdfError.unknownMonth mon)

/-- `_yy_to_yyyy`. -/
def yyToYyyy (yy : List Char) : Nat :=
  2000 + digitsToNat yy

/-- `_format_date_ddmmyyyy`: `f"{d:02d}/{m:02d}/{y:04d}"`, with the
`_month_to_number` error propagating. -/
def formatDateDdmmyyyy (day mon yy : List Char) : Except PdfError (List Char) :=
  match monthToNumber mon with
  | Except.ok m =>
    Except.ok (fmtWidth 2 (digitsToNat day) ++ '/' :: fmtWidth 2 m ++
      '/' :: fmtWidth 4 (yyToYyyy yy))
  | Except.error e => Except.error e

example : formatDateDdmmyyyy ("02").data ("Dec").data ("25").data
    = Except.ok ("02/12/2025").data := by decide

example : formatDateDdmmyyyy ("02").data ("Abc").data ("25").data
    = Except.error (PdfError.unknownMonth ("Abc").data) := by decide

/-! ### Block segmenter -/

/-- `_TxBlock`. -/
structure TxBlock where
  dateDisplay : List Char
  rawLines : List (List Char)
deriving DecidableEq

/-- `NO_DATE_START_RE = ^\s*(CR|DD|VIS|TFR|BP)\b`: the alternatives, in
pattern order. -/
def noDateStarters : List (List Char) :=
  [("CR").data, ("DD").data, ("VIS").data, ("TFR").data, ("BP").data]

/-- The `\b` assertion after a word character: next character absent or
not a word character. -/
def wordBoundaryAfter (rest : List Char) : Bool :=
  match rest with
  | [] => true
  | c :: _ => !isWordChar c

/-- `NO_DATE_START_RE.match(line)` as a Boolean: `\s*` greedily skips
leading whitespace (giving any of it back cannot help, since every alternative
starts with a letter), then one alternative must match, then `\b`. -/
def noDateStartMatch (l : List Char) : Bool :=
  let t := l.dropWhile pyIsSpace
  noDateStarters.any (fun p => p.isPrefixOf t && wordBoundaryAfter (t.drop p.length))

/-- The two boilerplate markers of `_split_into_blocks` and
`_build_staging_row`. -/
def balanceCarriedForward : List Char :=
  ("BALANCECARRIEDFORWARD").data

def balanceBroughtForward : List Char :=
  ("BALANCEBROUGHTFORWARD").data

/-- The boilerplate test of `_split_into_blocks`:
`normline.startswith(...) or normline.startswith(...)`. -/
def isBoilerplateLine (l : List Char) : Bool :=
  let n := normLetters l
  balanceCarriedForward.isPrefixOf n || balanceBroughtForward.isPrefixOf n

/-- The loop state of `_split_into_blocks`: emitted blocks, the open block,
and `last_date_display`. -/
structure SegState where
  blocks : List TxBlock
  current : Option TxBlock
  lastDateDisplay : Option (List Char)
deriving DecidableEq

/-- `if current is not None: blocks.append(current)`. -/
def emitCurrent (st : SegState) : List TxBlock :=
  match st.current with
  | some b => st.blocks ++ [b]
  | none => st.blocks

/-- Python truthiness of an optional string (`if last_date_display and ...`):
false on `None` and on the empty string. -/
def truthyOptStr : Option (List Char) → Bool
  | none => false
  | some s => !s.isEmpty

/-- One iteration of the `for line in lines` loop of `_split_into_blocks`. -/
def segStep (st : SegState) (line : List Char) : Except PdfError SegState :=
  if isBoilerplateLine line then
    Except.ok ⟨emitCurrent st, none, st.lastDateDisplay⟩
  else
    match matchDateLine line with
    | some (day, mon, yy, _) =>
      match formatDateDdmmyyyy day mon yy with
      | Except.ok dd => Except.ok ⟨emitCurrent st, some ⟨dd, [line]⟩, some dd⟩
      | Except.error e => Except.error e
    | none =>
      if truthyOptStr st.lastDateDisplay && noDateStartMatch line then
        Except.ok ⟨emitCurrent st, some ⟨st.lastDateDisplay.getD [], [line]⟩,
          st.lastDateDisplay⟩
      else
        match st.current with
        | some b =>
          Except.ok ⟨st.blocks, some ⟨b.dateDisplay, b.rawLines ++ [line]⟩,
            st.lastDateDisplay⟩
        | none => Except.ok st

/-- `_split_into_blocks`: fold the loop over the lines, then flush the open
block; the date-formatting error propagates. -/
def splitIntoBlocks (lines : List (List Char)) : Except PdfError (List TxBlock) :=
  match lines.foldlM segStep ⟨[], none, none⟩ with
  | Except.ok st => Except.ok (emitCurrent st)
  | Except.error e => Except.error e

example : splitIntoBlocks
    [("02 Dec 25 CR SALARY 1000.00 1000.00").data, ("VIS TESCO 12.34 987.66").data]
    = Except.ok
      [⟨("02/12/2025").data, [("02 Dec 25 CR SALARY 1000.00 1000.00").data]⟩,
       ⟨("02/12/2025").data, [("VIS TESCO 12.34 987.66").data]⟩] := by decide

/-! ### _strip_trailing_money

`re.sub(rf"\s{MONEY_RE.pattern}\s*$", "", out)`: the engine looks for the
leftmost position holding a whitespace character followed by a `MONEY_RE`
match (any of the backtracking candidates) followed by whitespace up to the
end of the string; the match then necessarily extends to the end (the final
`\s*` is greedy and `$` holds), so the substitution truncates the string
there, and at most one substitution can happen. -/

/-- Does the list start with a `MONEY_RE` candidate whose remainder is all
whitespace (the `MONEY_RE.pattern + \s*$` part of the substitution pattern)? -/
def moneyThenSpacesToEnd (l : List Char) : Bool :=
  (moneyCandidateLens l).any (fun n => (l.drop n).all pyIsSpace)

/-- Position of the leftmost match of `\s MONEY_RE \s*$`. -/
def findStripPos : List Char → Option Nat
  | [] => none
  | c :: rest =>
    if pyIsSpace c && moneyThenSpacesToEnd rest then some 0
    else (findStripPos rest).map Nat.succ

/-- One `re.sub(rf"\s{MONEY_RE.pattern}\s*$", "", out)` call. -/
def subTrailingMoneyOnce (l : List Char) : List Char :=
  match findStripPos l with
  | some i => l.take i
  | none => l

/-- The `for _ in range(n)` loop body of `_strip_trailing_money`:
`out = re.sub(...).strip()`. -/
def stripLoop : List Char → Nat → List Char
  | out, 0 => out
  | out, Nat.succ n => stripLoop (pyStrip (subTrailingMoneyOnce out)) n

/-- `_strip_trailing_money(text, n)`: start from `text.strip()`, run the loop
`n` times. -/
def stripTrailingMoney (text : List Char) (n : Nat) : List Char :=
  stripLoop (pyStrip text) n

example : stripTrailingMoney ("DD RENT 500.00 500.00").data 2
    = ("DD RENT").data := by decide

example : stripTrailingMoney ("VIS A 1.00 2.00 3.00 4.00").data 2
    = ("VIS A 1.00 2.00").data := by decide

example : stripTrailingMoney ("CR X 5,224.34 1,000.00").data 2
    = ("CR X").data := by decide

/-! ### _is_credit and _build_staging_row -/

/-- Python `str.splitlines` boundary characters (the ones that can occur in
`Char`). -/
def pyIsLineBreak (c : Char) : Bool :=
  c = '\n' || c = '\r' || c = '\x0b' || c = '\x0c' ||
  c = '\x1c' || c = '\x1d' || c = '\x1e' || c = '\x85' ||
  c = ' ' || c = ' '

/-- `block_text.splitlines()[0] if block_text else ""`. -/
def firstSplitLine (l : List Char) : List Char :=
  if l.isEmpty then [] else l.takeWhile (fun c => !pyIsLineBreak c)

/-- The `"CR "` marker of `_is_credit`. -/
def crSpace : List Char :=
  ("CR ").data

/-- `_is_credit`. -/
def isCredit (blockText : List Char) : Bool :=
  let firstLine := firstSplitLine blockText
  if crSpace.isPrefixOf firstLine then true
  else
    match matchDateLine firstLine with
    | none => false
    | some (_, _, _, rest) => crSpace.isPrefixOf (pyStrip rest)

/-- Python `sep.join(list_of_strings)`. -/
def joinWith (sep : Char) : List (List Char) → List Char
  | [] => []
  | [x] => x
  | x :: xs => x ++ sep :: joinWith sep xs

/-- The staging row dictionary produced by `_build_staging_row` (the fixed
key set `date, merchant, description, amount, primary, balancing`). -/
structure StagingRow where
  date : List Char
  merchant : List Char
  description : List Char
  amount : List Char
  primary : List Char
  balancing : List Char
deriving DecidableEq

/-- The description computation of `_build_staging_row`: strip the trailing
money tokens from the flattened text; when the first raw line is a date line,
redo it from the remainder-after-date joined with the continuation lines. -/
def builderDescription (block : TxBlock) : List Char :=
  let blockTextFlat := joinWith ' ' block.rawLines
  match matchDateLine (block.rawLines.headD []) with
  | some (_, _, _, rest) =>
    let firstRest := pyStrip rest
    let continuation := block.rawLines.tail
    stripTrailingMoney (pyStrip (joinWith ' ' (firstRest :: continuation))) 2
  | none => stripTrailingMoney blockTextFlat 2

/-- `_build_staging_row`; the boilerplate guard's empty dict is `none`. -/
def buildStagingRow (block : TxBlock) : Option StagingRow :=
  let blockTextMultiline := joinWith '\n' block.rawLines
  let blockTextFlat := joinWith ' ' block.rawLines
  let ab := extractAmountAndBalance blockTextFlat
  let amountOut :=
    match ab.1 with
    | none => ([] : List Char)
    | some amount =>
      if isCredit blockTextMultiline then amount else '-' :: amount
  let desc := builderDescription block
  let norm := normLetters desc
  if balanceBroughtForward.isPrefixOf norm || balanceCarriedForward.isPrefixOf norm then
    none
  else
    some ⟨block.dateDisplay, [], desc, amountOut, [], []⟩

example : buildStagingRow ⟨("02/12/2025").data, [("02 Dec 25 DD RENT 500.00 500.00").data]⟩
    = some ⟨("02/12/2025").data, [], ("DD RENT").data, ("-500.00").data, [], []⟩ := by
  decide

example : buildStagingRow ⟨("02/12/2025").data, [("02 Dec 25 CR SALARY 1000.00 1000.00").data]⟩
    = some ⟨("02/12/2025").data, [], ("CR SALARY").data, ("1000.00").data, [], []⟩ := by
  decide

example : buildStagingRow ⟨("02/12/2025").data, [("Balance carried forward 3.00").data]⟩
    = none := by decide

/-! ### extract_transactions_from_pdf -/

/-- The expected extension. -/
def dotPdf : List Char :=
  (".pdf").data

/-- `extract_transactions_from_pdf`.  The filesystem and the pdfplumber text
extraction are external effects: `pathExists` stands for `path.exists()`,
`suffixLower` for `path.suffix.lower()`, and `pdfLines` for the stripped
non-empty lines `_iter_pdf_lines` would yield.  The two precondition checks
never inspect `pdfLines`. -/
def extractTransactionsFromPdf (pathExists : Bool) (suffixLower : List Char)
    (pdfLines : List (List Char)) : Except PdfError (List StagingRow) :=
  if !pathExists then
    Except.error PdfError.notFound
  else if suffixLower ≠ dotPdf then
    Except.error PdfError.wrongFileType
  else
    match splitIntoBlocks pdfLines with
    | Except.ok blocks =>
      Except.ok ((blocks.filterMap buildStagingRow).filter
        (fun row => !row.date.isEmpty && !row.amount.isEmpty))
    | Except.error e => Except.error e

example : extractTransactionsFromPdf true dotPdf
    [("02 Dec 25 CR SALARY 1000.00 1000.00").data, ("VIS TESCO 12.34 987.66").data]
    = Except.ok
      [⟨("02/12/2025").data, [], ("CR SALARY").data, ("1000.00").data, [], []⟩,
       ⟨("02/12/2025").data, [], ("VIS TESCO").data, ("-12.34").data, [], []⟩] := by
  decide

/-- Does some `MONEY_RE` match candidate end exactly at the end of the
string?  This is the "re-scanning the description finds a money token at the
string's end" reading of the spec's property P7. -/
def hasMoneyTokenAtEnd (l : List Char) : Bool :=
  (List.range l.length).any (fun p =>
    (moneyCandidateLens (l.drop p)).any (fun n => p + n = l.length))

/-- Does the import call fail with the unknown-month error? -/
def isUnknownMonthError {α : Type} : Except PdfError α → Bool
  | Except.error (PdfError.unknownMonth _) => true
  | _ => false

/-! ## Claims -/

/-- C1: over the flattened block text, `_extract_amount_and_balance` yields
no amount when `MONEY_RE` finds no token; with exactly one token, that token
(grouping commas removed) as the amount and no balance; with two or more
tokens, the second-to-last token (commas removed) as the amount and the last
token (commas removed) as the running balance. -/
theorem c1_amount_balance_cases (text : List Char) :
    (findMoneyTokens text = [] → extractAmountAndBalance text = (none, none)) ∧
    (∀ a, findMoneyTokens text = [a] →
      extractAmountAndBalance text = (some (cleanAmountToken a), none)) ∧
    (∀ pre amt bal, findMoneyTokens text = pre ++ [amt, bal] →
      extractAmountAndBalance text =
        (some (cleanAmountToken amt), some (cleanAmountToken bal))) := by
  refine ⟨fun h => ?_, fun a h => ?_, fun pre amt bal h => ?_⟩ <;>
    simp [extractAmountAndBalance, h, List.reverse_append]

theorem c1_witness :
    extractAmountAndBalance ("no tokens").data = (none, none) ∧
    extractAmountAndBalance ("03 Dec 25 BP PHONE 19.99").data
      = (some (("19.99").data), none) ∧
    extractAmountAndBalance ("A 1.00 5,224.34 3.00").data
      = (some (("5224.34").data), some (("3.00").data)) :=
  ⟨(c1_amount_balance_cases _).1 (by decide),
   (c1_amount_balance_cases _).2.1 (("19.99").data) (by decide),
   (c1_amount_balance_cases _).2.2 [("1.00").data] (("5,224.34").data) (("3.00").data)
     (by decide)⟩

/-- C2: a block with an extracted amount is classified as a credit exactly
when its first physical line begins with `"CR "`, or matches the date-line
pattern with the remainder after the date beginning with `"CR "`; the emitted
amount string is unchanged for a credit and gets a `-` prefix for a debit. -/
theorem c2_credit_sign (b : TxBlock) (r : StagingRow) (a : List Char)
    (bal : Option (List Char))
    (hrow : buildStagingRow b = some r)
    (hamt : extractAmountAndBalance (joinWith ' ' b.rawLines) = (some a, bal)) :
    isCredit (joinWith '\n' b.rawLines) =
      (crSpace.isPrefixOf (firstSplitLine (joinWith '\n' b.rawLines)) ||
        (match matchDateLine (firstSplitLine (joinWith '\n' b.rawLines)) with
         | some (_, _, _, rest) => crSpace.isPrefixOf (pyStrip rest)
         | none => false)) ∧
    r.amount = (if isCredit (joinWith '\n' b.rawLines) then a else '-' :: a) := by
  constructor
  · unfold isCredit
    cases hp : crSpace.isPrefixOf (firstSplitLine (joinWith '\n' b.rawLines))
    · cases hd : matchDateLine (firstSplitLine (joinWith '\n' b.rawLines)) with
      | none => simp [hp, hd]
      | some v =>
        obtain ⟨d, m, y, rest⟩ := v
        simp [hp, hd]
    · simp [hp]
  · simp only [buildStagingRow, hamt] at hrow
    split at hrow
    · exact absurd hrow (by simp)
    · obtain rfl := Option.some.inj hrow
      rfl

theorem c2_witness :
    (⟨("02/12/2025").data, [], ("DD RENT").data, ("-500.00").data, [], []⟩ : StagingRow).amount
      = (if isCredit (joinWith '\n' [("02 Dec 25 DD RENT 500.00 500.00").data])
         then ("500.00").data else '-' :: ("500.00").data) :=
  (c2_credit_sign ⟨("02/12/2025").data, [("02 Dec 25 DD RENT 500.00 500.00").data]⟩
    ⟨("02/12/2025").data, [], ("DD RENT").data, ("-500.00").data, [], []⟩
    (("500.00").data) (some (("500.00").data)) (by decide) (by decide)).2

/-- C3: with a previously seen date and an incoming line matching
`NO_DATE_START_RE` (and no branch of higher priority firing), the segmenter
closes any open block and opens a new block that inherits the last-seen date
and holds this line; on the P2 line pair both emitted blocks carry the date
`02/12/2025`. -/
theorem c3_date_inheritance :
    (∀ st line, truthyOptStr st.lastDateDisplay = true →
      noDateStartMatch line = true →
      isBoilerplateLine line = false →
      matchDateLine line = none →
      segStep st line = Except.ok
        ⟨emitCurrent st, some ⟨st.lastDateDisplay.getD [], [line]⟩,
          st.lastDateDisplay⟩) ∧
    splitIntoBlocks
      [("02 Dec 25 CR SALARY 1000.00 1000.00").data, ("VIS TESCO 12.34 987.66").data]
      = Except.ok
        [⟨("02/12/2025").data, [("02 Dec 25 CR SALARY 1000.00 1000.00").data]⟩,
         ⟨("02/12/2025").data, [("VIS TESCO 12.34 987.66").data]⟩] := by
  constructor
  · intro st line ht hn hb hd
    simp [segStep, hb, hd, ht, hn]
  · decide

theorem c3_witness :
    segStep ⟨[], none, some (("02/12/2025").data)⟩ ("VIS TESCO 12.34 987.66").data
      = Except.ok ⟨[], some ⟨("02/12/2025").data, [("VIS TESCO 12.34 987.66").data]⟩,
          some (("02/12/2025").data)⟩ :=
  c3_date_inheritance.1 ⟨[], none, some (("02/12/2025").data)⟩
    (("VIS TESCO 12.34 987.66").data) (by decide) (by decide) (by decide) (by decide)

/-- A successful pipeline run decomposes into a successful segmentation whose
blocks are built and filtered. -/
theorem extractOk_decomp (pathExists : Bool) (suffixLower : List Char)
    (pdfLines : List (List Char)) (rows : List StagingRow)
    (hok : extractTransactionsFromPdf pathExists suffixLower pdfLines = Except.ok rows) :
    ∃ blocks, splitIntoBlocks pdfLines = Except.ok blocks ∧
      rows = (blocks.filterMap buildStagingRow).filter
        (fun row => !row.date.isEmpty && !row.amount.isEmpty) := by
  unfold extractTransactionsFromPdf at hok
  cases pathExists
  · simp at hok
  · by_cases hs : suffixLower = dotPdf
    · subst hs
      cases hb : splitIntoBlocks pdfLines with
      | ok blocks =>
        refine ⟨blocks, rfl, ?_⟩
        simp [hb] at hok
        exact hok.symm
      | error e => simp [hb] at hok
    · simp [hs] at hok

/-- C4: every record in the final sequence returned by the pipeline driver
has a non-empty date and a non-empty amount. -/
theorem c4_filter_invariant (pathExists : Bool) (suffixLower : List Char)
    (pdfLines : List (List Char)) (rows : List StagingRow) (r : StagingRow)
    (hok : extractTransactionsFromPdf pathExists suffixLower pdfLines = Except.ok rows)
    (hmem : r ∈ rows) :
    r.date ≠ [] ∧ r.amount ≠ [] := by
  obtain ⟨blocks, _, hrows⟩ := extractOk_decomp _ _ _ _ hok
  subst hrows
  have hp := (List.mem_filter.mp hmem).2
  refine ⟨fun hnil => ?_, fun hnil => ?_⟩ <;> simp [hnil] at hp

theorem c4_witness :
    (⟨("02/12/2025").data, [], ("DD RENT").data, ("-1.00").data, [], []⟩ : StagingRow).date
      ≠ [] ∧
    (⟨("02/12/2025").data, [], ("DD RENT").data, ("-1.00").data, [], []⟩ : StagingRow).amount
      ≠ [] :=
  c4_filter_invariant true dotPdf [("02 Dec 25 DD RENT 1.00 2.00").data]
    [⟨("02/12/2025").data, [], ("DD RENT").data, ("-1.00").data, [], []⟩]
    ⟨("02/12/2025").data, [], ("DD RENT").data, ("-1.00").data, [], []⟩
    (by decide) (by decide)

/-- A block the builder accepts has a description that fails the boilerplate
guard. -/
theorem buildRow_some_not_boiler (b : TxBlock) (r : StagingRow)
    (h : buildStagingRow b = some r) :
    (balanceBroughtForward.isPrefixOf (normLetters r.description) ||
      balanceCarriedForward.isPrefixOf (normLetters r.description)) = false := by
  simp only [buildStagingRow] at h
  by_cases hg : (balanceBroughtForward.isPrefixOf (normLetters (builderDescription b)) ||
      balanceCarriedForward.isPrefixOf (normLetters (builderDescription b))) = true
  · rw [if_pos hg] at h
    exact absurd h (by simp)
  · rw [if_neg hg] at h
    obtain rfl := Option.some.inj h
    exact (Bool.not_eq_true _) ▸ hg

/-- C6: boilerplate is excluded everywhere: the segmenter closes the open
block and discards a boilerplate line; the builder returns no record for a
block whose constructed description normalizes to boilerplate; consequently
no record of the returned sequence has a boilerplate description. -/
theorem c6_boilerplate_excluded :
    (∀ st line, isBoilerplateLine line = true →
      segStep st line = Except.ok ⟨emitCurrent st, none, st.lastDateDisplay⟩) ∧
    (∀ b : TxBlock,
      (balanceBroughtForward.isPrefixOf (normLetters (builderDescription b)) ||
        balanceCarriedForward.isPrefixOf (normLetters (builderDescription b))) = true →
      buildStagingRow b = none) ∧
    (∀ pathExists suffixLower pdfLines rows r,
      extractTransactionsFromPdf pathExists suffixLower pdfLines = Except.ok rows →
      r ∈ rows →
      (balanceBroughtForward.isPrefixOf (normLetters r.description) ||
        balanceCarriedForward.isPrefixOf (normLetters r.description)) = false) := by
  refine ⟨?_, ?_, ?_⟩
  · intro st line h
    simp [segStep, h]
  · intro b h
    simp [buildStagingRow, h]
  · intro pathExists suffixLower pdfLines rows r hok hmem
    obtain ⟨blocks, _, hrows⟩ := extractOk_decomp _ _ _ _ hok
    subst hrows
    obtain ⟨blk, _, hbuild⟩ := List.mem_filterMap.mp (List.mem_filter.mp hmem).1
    exact buildRow_some_not_boiler blk r hbuild

theorem c6_witness :
    segStep ⟨[], none, none⟩ ("Balance carried forward 3.00").data
      = Except.ok ⟨[], none, none⟩ :=
  c6_boilerplate_excluded.1 ⟨[], none, none⟩
    (("Balance carried forward 3.00").data) (by decide)

/-- C5 counterexample: the builder's description for the single-line block
`02 Dec 25 VIS A 1.00 2.00 3.00 4.00` is `VIS A 1.00 2.00`, and re-scanning
it finds a money token ending exactly at the string's end — stripping is not
idempotent in the claimed sense. -/
theorem c5_counterexample :
    buildStagingRow ⟨("02/12/2025").data, [("02 Dec 25 VIS A 1.00 2.00 3.00 4.00").data]⟩
      = some ⟨("02/12/2025").data, [], ("VIS A 1.00 2.00").data, ("-3.00").data, [], []⟩ ∧
    hasMoneyTokenAtEnd ("VIS A 1.00 2.00").data = true := by
  decide

/-- Soundness of the leftmost-match search of `_strip_trailing_money`: the
found position holds a whitespace character followed by a money token and
whitespace up to the end. -/
theorem findStripPos_spec (l : List Char) :
    ∀ i, findStripPos l = some i →
      pyIsSpace (l.getD i ' ') = true ∧
      moneyThenSpacesToEnd (l.drop (i + 1)) = true := by
  induction l with
  | nil => intro i h; simp [findStripPos] at h
  | cons c rest ih =>
    intro i h
    unfold findStripPos at h
    by_cases hc : (pyIsSpace c && moneyThenSpacesToEnd rest) = true
    · rw [if_pos hc] at h
      obtain rfl := Option.some.inj h
      rw [Bool.and_eq_true] at hc
      exact ⟨hc.1, hc.2⟩
    · rw [if_neg hc] at h
      obtain ⟨j, hj, rfl⟩ := Option.map_eq_some'.mp h
      simpa using ih j hj

/-- C5 (amended): each substitution pass of `_strip_trailing_money` removes
at most one suffix — a whitespace character, a money token and trailing
whitespace, at the leftmost such position — so the result is a prefix of the
input, and `n = 2` chains exactly two such passes; a money token can remain
at the end of the description (see the counterexample). -/
theorem c5_strip_removes_trailing_token (l : List Char) :
    subTrailingMoneyOnce l <+: l ∧
    (∀ i, findStripPos l = some i →
      subTrailingMoneyOnce l = l.take i ∧
      pyIsSpace (l.getD i ' ') = true ∧
      moneyThenSpacesToEnd (l.drop (i + 1)) = true) ∧
    stripTrailingMoney l 2
      = pyStrip (subTrailingMoneyOnce (pyStrip (subTrailingMoneyOnce (pyStrip l)))) := by
  refine ⟨?_, fun i h => ?_, rfl⟩
  · unfold subTrailingMoneyOnce
    cases h : findStripPos l
    · simp
    · simp [List.take_prefix]
  · exact ⟨by simp [subTrailingMoneyOnce, h], (findStripPos_spec l i h).1,
      (findStripPos_spec l i h).2⟩

theorem c5_witness :
    subTrailingMoneyOnce (" 1.00").data <+: (" 1.00").data ∧
    (subTrailingMoneyOnce (" 1.00").data = ((" 1.00").data).take 0 ∧
      pyIsSpace (((" 1.00").data).getD 0 ' ') = true ∧
      moneyThenSpacesToEnd (((" 1.00").data).drop (0 + 1)) = true) :=
  ⟨(c5_strip_removes_trailing_token ((" 1.00").data)).1,
   (c5_strip_removes_trailing_token ((" 1.00").data)).2.1 0 (by decide)⟩

/-- C7 counterexample: `12 Bal 25 AnceCarriedForward` matches the date-line
pattern and its month token `Bal` is not in the month table, yet the import
succeeds (with an empty result): the boilerplate branch runs before the date
branch and silently discards the line. -/
theorem c7_counterexample :
    (matchDateLine ("12 Bal 25 AnceCarriedForward").data).isSome = true ∧
    monthTable.lookup (pyCapitalize ("Bal").data) = none ∧
    extractTransactionsFromPdf true dotPdf [("12 Bal 25 AnceCarriedForward").data]
      = Except.ok [] := by
  decide

/-- `_month_to_number` can only fail with the unknown-month error naming its
argument. -/
theorem monthToNumber_error (mon : List Char) (e : PdfError)
    (h : monthToNumber mon = Except.error e) : e = PdfError.unknownMonth mon := by
  unfold monthToNumber at h
  cases hl : monthTable.lookup (pyCapitalize mon) with
  | none =>
    simp only [hl] at h
    exact (Except.error.inj h).symm
  | some m =>
    simp only [hl] at h
    split at h
    · exact (Except.error.inj h).symm
    · exact absurd h (by simp)

/-- `_format_date_ddmmyyyy` can only fail with an unknown-month error. -/
theorem formatDate_error_unknownMonth (day mon yy : List Char) (e : PdfError)
    (h : formatDateDdmmyyyy day mon yy = Except.error e) :
    ∃ t, e = PdfError.unknownMonth t := by
  unfold formatDateDdmmyyyy at h
  cases hm : monthToNumber mon with
  | ok m => simp only [hm] at h; exact absurd h (by simp)
  | error e' =>
    simp only [hm] at h
    exact ⟨mon, (Except.error.inj h) ▸ monthToNumber_error mon e' hm⟩

/-- `_split_into_blocks` iterations can only fail with an unknown-month
error. -/
theorem segStep_error (st : SegState) (line : List Char) (e : PdfError)
    (h : segStep st line = Except.error e) : ∃ t, e = PdfError.unknownMonth t := by
  unfold segStep at h
  by_cases hb : isBoilerplateLine line = true
  · rw [if_pos hb] at h
    exact absurd h (by simp)
  · rw [if_neg hb] at h
    cases hd : matchDateLine line with
    | none =>
      simp only [hd] at h
      split at h
      · exact absurd h (by simp)
      · cases hc : st.current with
        | some b => simp only [hc] at h; exact absurd h (by simp)
        | none => simp only [hc] at h; exact absurd h (by simp)
    | some v =>
      obtain ⟨day, mon, yy, rest⟩ := v
      simp only [hd] at h
      cases hf : formatDateDdmmyyyy day mon yy with
      | ok dd => simp only [hf] at h; exact absurd h (by simp)
      | error e' =>
        simp only [hf] at h
        obtain ⟨t, ht⟩ := formatDate_error_unknownMonth day mon yy e' hf
        exact ⟨t, (Except.error.inj h) ▸ ht⟩

/-- A non-boilerplate date line whose month token is not in the table makes
the segmenter step fail with the unknown-month error. -/
theorem segStep_unknown_month (st : SegState) (line day mon yy rest : List Char)
    (hb : isBoilerplateLine line = false)
    (hd : matchDateLine line = some (day, mon, yy, rest))
    (hm : monthTable.lookup (pyCapitalize mon) = none) :
    segStep st line = Except.error (PdfError.unknownMonth mon) := by
  unfold segStep
  rw [if_neg (by simp [hb])]
  have hf : formatDateDdmmyyyy day mon yy
      = Except.error (PdfError.unknownMonth mon) := by
    unfold formatDateDdmmyyyy monthToNumber
    simp [hm]
  simp [hd, hf]

/-- Folding the segmenter over lines that contain a non-boilerplate date line
with an unknown month yields an unknown-month error. -/
theorem foldlM_unknown_month (pdfLines : List (List Char)) :
    ∀ st line day mon yy rest, line ∈ pdfLines →
      isBoilerplateLine line = false →
      matchDateLine line = some (day, mon, yy, rest) →
      monthTable.lookup (pyCapitalize mon) = none →
      isUnknownMonthError (pdfLines.foldlM segStep st) = true := by
  induction pdfLines with
  | nil =>
    intro st line day mon yy rest hmem
    exact absurd hmem (by simp)
  | cons l ls ih =>
    intro st line day mon yy rest hmem hb hd hm
    rw [List.foldlM_cons]
    rcases List.mem_cons.mp hmem with rfl | hmem'
    · rw [segStep_unknown_month st line day mon yy rest hb hd hm]
      rfl
    · cases hstep : segStep st l with
      | ok st' =>
        exact ih st' line day mon yy rest hmem' hb hd hm
      | error e =>
        obtain ⟨t, rfl⟩ := segStep_error st l e hstep
        rfl

/-- C7 (amended): for every input containing a line that matches the
date-line pattern, does not normalize to the balance-carried/brought-forward
boilerplate, and has a month token outside the 12-entry table, the import
call fails with the unknown-month error and returns no result sequence. -/
theorem c7_unknown_month_aborts (pdfLines : List (List Char))
    (line day mon yy rest : List Char)
    (hmem : line ∈ pdfLines)
    (hb : isBoilerplateLine line = false)
    (hd : matchDateLine line = some (day, mon, yy, rest))
    (hm : monthTable.lookup (pyCapitalize mon) = none) :
    isUnknownMonthError (extractTransactionsFromPdf true dotPdf pdfLines) = true := by
  have hfold := foldlM_unknown_month pdfLines ⟨[], none, none⟩ line day mon yy rest
    hmem hb hd hm
  unfold extractTransactionsFromPdf splitIntoBlocks
  rw [if_neg (by simp), if_neg (by simp)]
  cases hf : pdfLines.foldlM segStep ⟨[], none, none⟩ with
  | ok st =>
    rw [hf] at hfold
    exact absurd hfold (by simp [isUnknownMonthError])
  | error e =>
    rw [hf] at hfold
    cases e <;> simp [isUnknownMonthError] at hfold ⊢

theorem c7_witness :
    isUnknownMonthError
      (extractTransactionsFromPdf true dotPdf [("02 Abc 25 FOO 1.00").data]) = true :=
  c7_unknown_month_aborts [("02 Abc 25 FOO 1.00").data]
    (("02 Abc 25 FOO 1.00").data) (("02").data) (("Abc").data) (("25").data)
    (("FOO 1.00").data) (by decide) (by decide) (by decide) (by decide)

/-- C8: a missing file fails with the not-found error; an existing file with
a wrong extension fails with the distinct wrong-file-type error; in both
cases the result does not depend on the extracted text at all (the checks run
before any extraction). -/
theorem c8_precondition_checks (suffixLower : List Char)
    (pdfLines pdfLines' : List (List Char)) :
    extractTransactionsFromPdf false suffixLower pdfLines
      = Except.error PdfError.notFound ∧
    (suffixLower ≠ dotPdf →
      extractTransactionsFromPdf true suffixLower pdfLines
        = Except.error PdfError.wrongFileType) ∧
    extractTransactionsFromPdf false suffixLower pdfLines
      = extractTransactionsFromPdf false suffixLower pdfLines' ∧
    (suffixLower ≠ dotPdf →
      extractTransactionsFromPdf true suffixLower pdfLines
        = extractTransactionsFromPdf true suffixLower pdfLines') := by
  refine ⟨?_, fun hs => ?_, ?_, fun hs => ?_⟩ <;>
    simp [extractTransactionsFromPdf, *]

theorem c8_witness :
    extractTransactionsFromPdf false (".txt").data [] = Except.error PdfError.notFound ∧
    extractTransactionsFromPdf true (".txt").data [] = Except.error PdfError.wrongFileType :=
  ⟨(c8_precondition_checks ((".txt").data) [] []).1,
   (c8_precondition_checks ((".txt").data) [] []).2.1 (by decide)⟩

/-- The invariant carried by the segmenter state: every emitted block and the
open block have non-empty lines and a non-empty display date. -/
def blockInv (b : TxBlock) : Prop :=
  b.rawLines ≠ [] ∧ b.dateDisplay ≠ []

def segInv (st : SegState) : Prop :=
  (∀ b ∈ st.blocks, blockInv b) ∧ (∀ b, st.current = some b → blockInv b)

/-- A formatted display date is never the empty string. -/
theorem formatDate_ok_ne_nil (day mon yy s : List Char)
    (h : formatDateDdmmyyyy day mon yy = Except.ok s) : s ≠ [] := by
  unfold formatDateDdmmyyyy at h
  cases hm : monthToNumber mon with
  | ok m =>
    simp only [hm] at h
    obtain rfl := Except.ok.inj h
    simp
  | error e =>
    simp only [hm] at h
    exact absurd h (by simp)

/-- Python truthiness of the last-seen date gives a non-empty default. -/
theorem truthy_getD (o : Option (List Char)) (h : truthyOptStr o = true) :
    o.getD [] ≠ [] := by
  cases o with
  | none => simp [truthyOptStr] at h
  | some s =>
    simp [truthyOptStr] at h
    simpa using h

theorem segStep_preserves_inv (st st' : SegState) (line : List Char)
    (hinv : segInv st) (h : segStep st line = Except.ok st') : segInv st' := by
  have hemit : ∀ b ∈ emitCurrent st, blockInv b := by
    intro b hb
    unfold emitCurrent at hb
    cases hc : st.current with
    | some c =>
      rw [hc] at hb
      rcases List.mem_append.mp hb with h1 | h2
      · exact hinv.1 b h1
      · rw [List.mem_singleton] at h2
        exact h2 ▸ hinv.2 c hc
    | none =>
      rw [hc] at hb
      exact hinv.1 b hb
  unfold segStep at h
  by_cases hb : isBoilerplateLine line = true
  · rw [if_pos hb] at h
    obtain rfl := Except.ok.inj h
    exact ⟨hemit, fun b hb2 => by simp at hb2⟩
  · rw [if_neg hb] at h
    cases hd : matchDateLine line with
    | some v =>
      obtain ⟨day, mon, yy, rest⟩ := v
      simp only [hd] at h
      cases hf : formatDateDdmmyyyy day mon yy with
      | ok dd =>
        simp only [hf] at h
        obtain rfl := Except.ok.inj h
        refine ⟨hemit, fun b hb2 => ?_⟩
        obtain rfl := Option.some.inj hb2
        exact ⟨by simp, formatDate_ok_ne_nil day mon yy dd hf⟩
      | error e =>
        simp only [hf] at h
        exact absurd h (by simp)
    | none =>
      simp only [hd] at h
      by_cases ht : (truthyOptStr st.lastDateDisplay && noDateStartMatch line) = true
      · rw [if_pos ht] at h
        obtain rfl := Except.ok.inj h
        refine ⟨hemit, fun b hb2 => ?_⟩
        obtain rfl := Option.some.inj hb2
        rw [Bool.and_eq_true] at ht
        exact ⟨by simp, truthy_getD _ ht.1⟩
      · rw [if_neg ht] at h
        cases hc : st.current with
        | some c =>
          simp only [hc] at h
          obtain rfl := Except.ok.inj h
          refine ⟨hinv.1, fun b hb2 => ?_⟩
          obtain rfl := Option.some.inj hb2
          exact ⟨by simp, (hinv.2 c hc).2⟩
        | none =>
          simp only [hc] at h
          obtain rfl := Except.ok.inj h
          exact hinv

theorem foldlM_preserves_inv (pdfLines : List (List Char)) :
    ∀ st st', segInv st → pdfLines.foldlM segStep st = Except.ok st' → segInv st' := by
  induction pdfLines with
  | nil =>
    intro st st' hinv h
    obtain rfl := Except.ok.inj h
    exact hinv
  | cons l ls ih =>
    intro st st' hinv h
    rw [List.foldlM_cons] at h
    cases hstep : segStep st l with
    | ok st1 =>
      rw [hstep] at h
      exact ih st1 st' (segStep_preserves_inv st st1 l hinv hstep) h
    | error e =>
      rw [hstep] at h
      exact absurd h (by simp [Bind.bind, Except.bind])

/-- C9: every block emitted by the segmenter has non-empty lines and a
non-empty display date; moreover the open block's display date always equals
the segmenter's last-seen date, so an emitted date is inherited either from
the block's own date line or from the most recent date line. -/
theorem c9_emitted_block_invariant :
    (∀ pdfLines blocks b, splitIntoBlocks pdfLines = Except.ok blocks → b ∈ blocks →
      b.rawLines ≠ [] ∧ b.dateDisplay ≠ []) ∧
    (∀ st st' line,
      (∀ c, st.current = some c → st.lastDateDisplay = some c.dateDisplay) →
      segStep st line = Except.ok st' →
      ∀ c, st'.current = some c → st'.lastDateDisplay = some c.dateDisplay) := by
  constructor
  · intro pdfLines blocks b hok hmem
    unfold splitIntoBlocks at hok
    cases hf : pdfLines.foldlM segStep ⟨[], none, none⟩ with
    | ok st =>
      rw [hf] at hok
      obtain rfl := Except.ok.inj hok
      have hinv := foldlM_preserves_inv pdfLines ⟨[], none, none⟩ st
        ⟨by simp, by simp⟩ hf
      unfold emitCurrent at hmem
      cases hc : st.current with
      | some c =>
        rw [hc] at hmem
        rcases List.mem_append.mp hmem with h1 | h2
        · exact hinv.1 b h1
        · rw [List.mem_singleton] at h2
          exact h2 ▸ hinv.2 c hc
      | none =>
        rw [hc] at hmem
        exact hinv.1 b hmem
    | error e =>
      rw [hf] at hok
      exact absurd hok (by simp)
  · intro st st' line hlink h
    unfold segStep at h
    by_cases hb : isBoilerplateLine line = true
    · rw [if_pos hb] at h
      obtain rfl := Except.ok.inj h
      intro c hc
      exact absurd hc (by simp)
    · rw [if_neg hb] at h
      cases hd : matchDateLine line with
      | some v =>
        obtain ⟨day, mon, yy, rest⟩ := v
        simp only [hd] at h
        cases hf : formatDateDdmmyyyy day mon yy with
        | ok dd =>
          simp only [hf] at h
          obtain rfl := Except.ok.inj h
          intro c hc
          obtain rfl := Option.some.inj hc
          rfl
        | error e =>
          simp only [hf] at h
          exact absurd h (by simp)
      | none =>
        simp only [hd] at h
        by_cases ht : (truthyOptStr st.lastDateDisplay && noDateStartMatch line) = true
        · rw [if_pos ht] at h
          obtain rfl := Except.ok.inj h
          intro c hc
          obtain rfl := Option.some.inj hc
          rw [Bool.and_eq_true] at ht
          cases ho : st.lastDateDisplay with
          | none => rw [ho] at ht; simp [truthyOptStr] at ht
          | some s => rfl
        · rw [if_neg ht] at h
          cases hc2 : st.current with
          | some c0 =>
            simp only [hc2] at h
            obtain rfl := Except.ok.inj h
            intro c hc
            obtain rfl := Option.some.inj hc
            exact hlink c0 hc2
          | none =>
            simp only [hc2] at h
            obtain rfl := Except.ok.inj h
            exact hlink

theorem c9_witness :
    (⟨("02/12/2025").data, [("02 Dec 25 DD RENT 1.00 2.00").data]⟩ : TxBlock).rawLines
      ≠ [] ∧
    (⟨("02/12/2025").data, [("02 Dec 25 DD RENT 1.00 2.00").data]⟩ : TxBlock).dateDisplay
      ≠ [] :=
  c9_emitted_block_invariant.1 [("02 Dec 25 DD RENT 1.00 2.00").data]
    [⟨("02/12/2025").data, [("02 Dec 25 DD RENT 1.00 2.00").data]⟩]
    ⟨("02/12/2025").data, [("02 Dec 25 DD RENT 1.00 2.00").data]⟩
    (by decide) (by decide)

/-- C10: date formatting never validates the day: whenever the month token
resolves, formatting succeeds for an arbitrary day string, zero-padded into
the display date; concretely, a `99 Dec 25` line flows through the whole
pipeline into a record dated `99/12/2025`. -/
theorem c10_no_day_range_validation (day mon yy : List Char) (m : Nat)
    (hm : monthToNumber mon = Except.ok m) :
    formatDateDdmmyyyy day mon yy
      = Except.ok (fmtWidth 2 (digitsToNat day) ++ '/' :: fmtWidth 2 m ++
          '/' :: fmtWidth 4 (yyToYyyy yy)) ∧
    extractTransactionsFromPdf true dotPdf [("99 Dec 25 DD RENT 1.00 2.00").data]
      = Except.ok [⟨("99/12/2025").data, [], ("DD RENT").data, ("-1.00").data, [], []⟩] := by
  constructor
  · unfold formatDateDdmmyyyy
    rw [hm]
  · decide

theorem c10_witness :
    formatDateDdmmyyyy ("00").data ("Dec").data ("99").data
      = Except.ok (fmtWidth 2 (digitsToNat ("00").data) ++ '/' :: fmtWidth 2 12 ++
          '/' :: fmtWidth 4 (yyToYyyy ("99").data)) :=
  (c10_no_day_range_validation (("00").data) (("Dec").data) (("99").data) 12 (by decide)).1
